import Mathlib

/-!
# Verification of the QAM minimum-phase / dataset-builder core

Shallow embedding of the numeric core of `Funcoes.py`:

* the minimum-phase transform `sinal_qam_fase_min` (the transform part,
  lines 28-34: the upstream qampy signal generation and filtering is an
  external library and out of scope) and its inverse
  `reverter_sinal_fase_min`;
* the amplitude/phase extraction `abs_and_phases`;
* the four sliding-window dataset builders `dataset_01`, `dataset_02`,
  `dataset_03`, `dataset_02_CNN`, including numpy's slice clamping,
  row-assignment broadcasting, and reshape errors.

Complex samples are modelled over `ℂ` (exact arithmetic in place of
floats), a signal as a list of modes with `fs`/`fb` metadata, and numpy
exceptions as `Option.none`.
-/

/-- A qampy-style signal: a list of modes (each a list of complex
samples) together with the sample-rate `fs` and symbol-rate `fb`
metadata carried by `ResampledQAM` arrays. -/
structure Signal where
  fs : ℝ
  fb : ℝ
  modes : List (List ℂ)

/-- numpy `deg2rad`: degrees to radians. -/
noncomputable def deg2rad (d : ℝ) : ℝ := d * Real.pi / 180

/-- Embedding of `np.max(np.abs(sfilt))`: the peak absolute value over all modes of
the signal (numpy reduces over the whole 2-D array).  numpy's `max`
errors on an empty array; the fold seeds with `0`, which agrees with the
true maximum on every nonempty array of absolute values. -/
noncomputable def peakAbs (sig : Signal) : ℝ :=
  ((sig.modes.flatten).map Complex.abs).foldr max 0

/-- The ramp `Δf = 2*np.pi*(fb/2)*t` evaluated at sample index `n`,
with `t = np.arange(0, size)*1/fs`, i.e. `t = n·(1/fs)`. -/
noncomputable def Δf (sig : Signal) (n : ℕ) : ℝ :=
  2 * Real.pi * (sig.fb / 2) * (n * (1 / sig.fs))

/-- Elementwise application of an index-dependent function to a mode,
starting at index `n`: the embedding of a numpy elementwise operation
against the `np.arange` time vector. -/
def mapWithIdx (f : ℕ → ℂ → ℂ) : ℕ → List ℂ → List ℂ
  | _, [] => []
  | n, z :: zs => f n z :: mapWithIdx f (n + 1) zs

/-- The minimum-phase transform of `Funcoes.sinal_qam_fase_min`
(lines 28-34), taking the filtered signal `sfilt` as input (the
generation of `sfilt` itself is delegated to the external qampy
library):
`A = np.max(np.abs(sfilt))*np.exp(1j*np.deg2rad(45))`,
`Δf = 2*np.pi*(sfilt.fb/2)*t` with `t = np.arange(0, size)*1/fs`, and
`sfm = A + sfilt*np.exp(1j*Δf)`; returns `(sfm, A)`. -/
noncomputable def sinal_qam_fase_min (sfilt : Signal) : Signal × ℂ :=
  let A : ℂ := (peakAbs sfilt : ℂ) * Complex.exp (Complex.I * (deg2rad 45 : ℂ))
  ({ sfilt with
      modes := sfilt.modes.map fun mode =>
        mapWithIdx (fun n z => A + z * Complex.exp (Complex.I * (Δf sfilt n : ℂ))) 0 mode },
   A)

/-- Embedding of `Funcoes.reverter_sinal_fase_min`: recomputes the ramp from the
input signal's own `fs`/`fb` metadata and returns
`(sinal - A)/np.exp(1j*Δf)` elementwise. -/
noncomputable def reverter_sinal_fase_min (sinal : Signal) (A : ℂ) : Signal :=
  { sinal with
      modes := sinal.modes.map fun mode =>
        mapWithIdx (fun n z => (z - A) / Complex.exp (Complex.I * (Δf sinal n : ℂ))) 0 mode }

/-- The `{'amplitudes': ..., 'phases': ...}` dictionary returned by
`Funcoes.abs_and_phases`. -/
structure AbsPhases where
  amplitudes : List ℝ
  phases : List ℝ

/-- Embedding of `Funcoes.abs_and_phases`: elementwise `np.abs` and `np.angle` of the
first mode `sfm[0]` of the signal.  (`headD []` stands for the `[0]`
indexing; the source presupposes at least one mode.) -/
noncomputable def abs_and_phases (sfm : Signal) : AbsPhases :=
  { amplitudes := (sfm.modes.headD []).map Complex.abs
    phases := (sfm.modes.headD []).map Complex.arg }

/-- Composing two index-respecting elementwise maps that cancel pointwise
gives back the original mode. -/
theorem mapWithIdx_cancel (f g : ℕ → ℂ → ℂ) (h : ∀ n z, g n (f n z) = z) :
    ∀ (n : ℕ) (l : List ℂ), mapWithIdx g n (mapWithIdx f n l) = l
  | _, [] => rfl
  | n, z :: zs => by
    simp only [mapWithIdx, h n z, mapWithIdx_cancel f g h (n + 1) zs]

/-- Lemma: `mapWithIdx` looks up elementwise: the sample at position `j` of the
result is `f` applied at absolute index `n + j`. -/
theorem mapWithIdx_getElem? (f : ℕ → ℂ → ℂ) :
    ∀ (n : ℕ) (l : List ℂ) (j : ℕ), (mapWithIdx f n l)[j]? = (l[j]?).map (f (n + j))
  | _, [], j => by simp [mapWithIdx]
  | n, z :: zs, 0 => by simp [mapWithIdx]
  | n, z :: zs, j + 1 => by
    simp only [mapWithIdx, List.getElem?_cons_succ, mapWithIdx_getElem? f (n + 1) zs j]
    rw [Nat.add_assoc, Nat.add_comm 1 j]

/-- Mapping a function that fixes every element is the identity. -/
theorem list_map_fixpoints {α : Type} {F : α → α} (h : ∀ a, F a = a) :
    ∀ l : List α, l.map F = l
  | [] => rfl
  | a :: l => by rw [List.map_cons, h a, list_map_fixpoints h l]

/-- C1: Round-trip of the minimum-phase transform.  For every filtered
signal `sfilt`, applying `sinal_qam_fase_min` and then
`reverter_sinal_fase_min` with the returned constant `A` reconstructs
`sfilt` exactly (over the exact complex arithmetic of the embedding):
the inverse recomputes the identical ramp `Δf` from the same `fs`/`fb`
metadata and the same `t`-origin, and `((A + z·e^{iΔf}) - A)/e^{iΔf} = z`
since `e^{iΔf} ≠ 0`. -/
theorem roundtrip_fase_min (sfilt : Signal) :
    reverter_sinal_fase_min (sinal_qam_fase_min sfilt).1 (sinal_qam_fase_min sfilt).2 = sfilt := by
  obtain ⟨fs, fb, modes⟩ := sfilt
  simp only [sinal_qam_fase_min, reverter_sinal_fase_min, List.map_map, Signal.mk.injEq]
  refine ⟨trivial, trivial, ?_⟩
  refine list_map_fixpoints (fun mode => ?_) modes
  simp only [Function.comp_apply]
  refine mapWithIdx_cancel _ _ (fun n z => ?_) 0 mode
  simp only [Δf]
  rw [add_sub_cancel_left, mul_div_cancel_right₀ _ (Complex.exp_ne_zero _)]

/-- The fold seeding `max` with `0` is nonnegative. -/
theorem foldr_max_nonneg (l : List ℝ) : 0 ≤ l.foldr max 0 := by
  induction l with
  | nil => exact le_refl 0
  | cons a l ih => exact le_trans ih (le_max_right a _)

/-- Every element is bounded by the `max`-fold. -/
theorem le_foldr_max (l : List ℝ) : ∀ x ∈ l, x ≤ l.foldr max 0 := by
  induction l with
  | nil => intro x hx; cases hx
  | cons a l ih =>
    intro x hx
    rcases List.mem_cons.mp hx with h | h
    · subst h; exact le_max_left _ _
    · exact le_trans (ih x h) (le_max_right _ _)

/-- A positive `max`-fold is attained by some element of the list. -/
theorem foldr_max_mem (l : List ℝ) (h : 0 < l.foldr max 0) : l.foldr max 0 ∈ l := by
  induction l with
  | nil => simp only [List.foldr_nil] at h; exact absurd h (lt_irrefl 0)
  | cons a l ih =>
    rcases le_total (l.foldr max 0) a with hle | hle
    · rw [List.foldr_cons, max_eq_left hle]
      exact List.mem_cons_self a l
    · rw [List.foldr_cons, max_eq_right hle]
      rw [List.foldr_cons, max_eq_right hle] at h
      exact List.mem_cons_of_mem a (ih h)

/-- Fact: `np.deg2rad(45)` is `π/4`. -/
theorem deg2rad_45 : deg2rad 45 = Real.pi / 4 := by
  rw [deg2rad]; ring

/-- C2: Forward minimum-phase transform contract.  On any signal with a
positive peak, `sinal_qam_fase_min` returns a constant `A` whose
magnitude is the peak absolute value of the filtered signal (attained by
some sample and bounding all samples) and whose phase is 45° = π/4; the
ramp is `Δf(t) = 2π·(Fb/2)·t` with `t = n/Fs`; the returned signal keeps
the `fs`/`fb` metadata and satisfies `sfm[m][n] = A + sfilt[m][n] ·
exp(i·Δf(n))` elementwise. -/
theorem sinal_qam_fase_min_contract (sfilt : Signal) (hpos : 0 < peakAbs sfilt) :
    Complex.abs (sinal_qam_fase_min sfilt).2 = peakAbs sfilt ∧
    Complex.arg (sinal_qam_fase_min sfilt).2 = Real.pi / 4 ∧
    (∃ z ∈ sfilt.modes.flatten, Complex.abs z = peakAbs sfilt) ∧
    (∀ z ∈ sfilt.modes.flatten, Complex.abs z ≤ peakAbs sfilt) ∧
    (∀ n : ℕ, Δf sfilt n = 2 * Real.pi * (sfilt.fb / 2) * (n / sfilt.fs)) ∧
    (sinal_qam_fase_min sfilt).1.fs = sfilt.fs ∧
    (sinal_qam_fase_min sfilt).1.fb = sfilt.fb ∧
    (∀ (m n : ℕ) (mode : List ℂ) (z : ℂ),
      sfilt.modes[m]? = some mode → mode[n]? = some z →
      ∃ mode' : List ℂ, (sinal_qam_fase_min sfilt).1.modes[m]? = some mode' ∧
        mode'[n]? = some ((sinal_qam_fase_min sfilt).2 +
          z * Complex.exp (Complex.I * (Δf sfilt n : ℂ)))) := by
  refine ⟨?_, ?_, ?_, ?_, ?_, rfl, rfl, ?_⟩
  · simp only [sinal_qam_fase_min]
    rw [mul_comm Complex.I, map_mul, Complex.abs_ofReal, Complex.abs_exp_ofReal_mul_I,
      mul_one]
    exact abs_of_nonneg (foldr_max_nonneg _)
  · simp only [sinal_qam_fase_min]
    rw [mul_comm Complex.I, Complex.exp_mul_I, deg2rad_45,
      Complex.arg_real_mul _ hpos, Complex.arg_cos_add_sin_mul_I]
    constructor
    · linarith [Real.pi_pos]
    · linarith [Real.pi_pos]
  · have hmem : peakAbs sfilt ∈ (sfilt.modes.flatten).map Complex.abs :=
      foldr_max_mem _ hpos
    obtain ⟨z, hz, hze⟩ := List.mem_map.mp hmem
    exact ⟨z, hz, hze⟩
  · intro z hz
    exact le_foldr_max _ _ (List.mem_map_of_mem Complex.abs hz)
  · intro n
    rw [Δf, mul_one_div]
  · intro m n mode z hm hn
    simp only [sinal_qam_fase_min, List.getElem?_map, hm, Option.map_some']
    refine ⟨_, rfl, ?_⟩
    rw [mapWithIdx_getElem?, hn, Option.map_some', Nat.zero_add]

/-- Witness for C2 at the concrete one-sample, one-mode signal
`⟨1, 1, [[1]]⟩`, whose peak absolute value is `1 > 0`. -/
theorem sinal_qam_fase_min_contract_witness :
    0 < peakAbs ⟨1, 1, [[1]]⟩ ∧
    Complex.abs (sinal_qam_fase_min ⟨1, 1, [[1]]⟩).2 = peakAbs ⟨1, 1, [[1]]⟩ :=
  ⟨by simp [peakAbs, lt_max_iff],
   (sinal_qam_fase_min_contract ⟨1, 1, [[1]]⟩ (by simp [peakAbs, lt_max_iff])).1⟩

/-- C9: Amplitude/phase extraction contract.  `abs_and_phases` returns
two equal-length real traces, the elementwise magnitude and angle of the
first mode: every amplitude is nonnegative, every phase lies in the
principal range `(-π, π]`, and sample `n` of the output is
`(|z|, arg z)` for `z` the `n`-th sample of the first mode.  The
embedding is a pure function, so the input is not mutated. -/
theorem abs_and_phases_contract (sfm : Signal) :
    (abs_and_phases sfm).amplitudes.length = (abs_and_phases sfm).phases.length ∧
    (∀ a ∈ (abs_and_phases sfm).amplitudes, 0 ≤ a) ∧
    (∀ p ∈ (abs_and_phases sfm).phases, -Real.pi < p ∧ p ≤ Real.pi) ∧
    (∀ (n : ℕ) (z : ℂ), (sfm.modes.headD [])[n]? = some z →
      (abs_and_phases sfm).amplitudes[n]? = some (Complex.abs z) ∧
      (abs_and_phases sfm).phases[n]? = some (Complex.arg z)) := by
  refine ⟨by simp [abs_and_phases], ?_, ?_, ?_⟩
  · intro a ha
    simp only [abs_and_phases, List.mem_map] at ha
    obtain ⟨z, _, rfl⟩ := ha
    exact Complex.abs.nonneg z
  · intro p hp
    simp only [abs_and_phases, List.mem_map] at hp
    obtain ⟨z, _, rfl⟩ := hp
    exact ⟨Complex.neg_pi_lt_arg z, Complex.arg_le_pi z⟩
  · intro n z hz
    constructor
    · simp only [abs_and_phases, List.getElem?_map, hz, Option.map_some']
    · simp only [abs_and_phases, List.getElem?_map, hz, Option.map_some']

/-- numpy basic slice `a[i:j]` for `0 ≤ i ≤ j`: start and stop are
clamped to the array bounds, never raising. -/
def npSlice {α : Type} (l : List α) (i j : ℕ) : List α := (l.drop i).take (j - i)

/-- numpy row assignment `X[n] = aux` into a preallocated row of width
`ordem`: stores `aux` verbatim when the lengths match, broadcasts a
single sample across the whole row when `aux` has length 1, and
otherwise raises a broadcast `ValueError` (`none`). -/
def npSetRow (ordem : ℕ) (aux : List ℝ) : Option (List ℝ) :=
  if aux.length = ordem then some aux
  else if aux.length = 1 then some (List.replicate ordem (aux.headD 0))
  else none

/-- The `for n in range(...)` loop of the dataset builders, filling
successive rows from `f`; a raising iteration aborts the whole call
(`none`).  `buildLoop f n k` performs iterations `n, n+1, ..., n+k-1`. -/
def buildLoop {β : Type} (f : ℕ → Option β) : ℕ → ℕ → Option (List β)
  | _, 0 => some []
  | n, k + 1 =>
    match f n, buildLoop f (n + 1) k with
    | some row, some rest => some (row :: rest)
    | _, _ => none

/-- The `(data, X, y)` triple returned by the 1-D dataset builders
(`data` is the returned dictionary with its two sliced traces). -/
structure DatasetOut where
  data_amplitudes : List ℝ
  data_phases : List ℝ
  X : List (List ℝ)
  y : List ℝ

/-- Embedding of `Funcoes.dataset_01`: `size = 60000` windows of `ordem` amplitudes
starting at offset `n`; target `y = phases[ordem-1 : size+ordem-1]`
(phase of the last sample of each window); the returned dictionary is
sliced with the same offset. -/
noncomputable def dataset_01 (sfm : Signal) (ordem : ℕ) : Option DatasetOut :=
  let size := 60000
  let data := abs_and_phases sfm
  let amplitudes := data.amplitudes
  let phases := data.phases
  match buildLoop (fun n => npSetRow ordem (npSlice amplitudes n (ordem + n))) 0 size with
  | none => none
  | some X => some
      { data_amplitudes := npSlice amplitudes (ordem - 1) (size + ordem - 1)
        data_phases := npSlice phases (ordem - 1) (size + ordem - 1)
        X := X
        y := npSlice phases (ordem - 1) (size + ordem - 1) }

/-- Embedding of `Funcoes.dataset_02`: same feature windows; target
`y = phases[int(ordem/2) : size+int(ordem/2)]` (floor division). -/
noncomputable def dataset_02 (sfm : Signal) (ordem : ℕ) : Option DatasetOut :=
  let size := 60000
  let data := abs_and_phases sfm
  let amplitudes := data.amplitudes
  let phases := data.phases
  match buildLoop (fun n => npSetRow ordem (npSlice amplitudes n (ordem + n))) 0 size with
  | none => none
  | some X => some
      { data_amplitudes := npSlice amplitudes (ordem / 2) (size + ordem / 2)
        data_phases := npSlice phases (ordem / 2) (size + ordem / 2)
        X := X
        y := npSlice phases (ordem / 2) (size + ordem / 2) }

/-- Embedding of `Funcoes.dataset_03`: same feature windows; target
`y = phases[:size]` (phase of the first sample of each window). -/
noncomputable def dataset_03 (sfm : Signal) (ordem : ℕ) : Option DatasetOut :=
  let size := 60000
  let data := abs_and_phases sfm
  let amplitudes := data.amplitudes
  let phases := data.phases
  match buildLoop (fun n => npSetRow ordem (npSlice amplitudes n (ordem + n))) 0 size with
  | none => none
  | some X => some
      { data_amplitudes := npSlice amplitudes 0 size
        data_phases := npSlice phases 0 size
        X := X
        y := npSlice phases 0 size }

/-- numpy `reshape` helper: `m` successive rows of `k` elements taken
from the front of the list. -/
def reshapeRows (k : ℕ) : List ℝ → ℕ → List (List ℝ)
  | _, 0 => []
  | l, m + 1 => l.take k :: reshapeRows k (l.drop k) m

/-- numpy `aux.reshape(ordem, ordem)`: raises a `ValueError` (`none`)
unless the slice holds exactly `ordem*ordem` elements. -/
def npReshape (ordem : ℕ) (aux : List ℝ) : Option (List (List ℝ)) :=
  if aux.length = ordem * ordem then some (reshapeRows ordem aux ordem) else none

/-- The `(data, X, y)` result of the CNN builder, whose `X` carries the
trailing singleton dimension of `X.reshape((size, ordem, ordem, 1))`. -/
structure DatasetCNNOut where
  data_amplitudes : List ℝ
  data_phases : List ℝ
  X : List (List (List (List ℝ)))
  y : List ℝ

/-- Embedding of `Funcoes.dataset_02_CNN`: windows of `ordem*ordem` amplitudes
reshaped to `ordem×ordem` grids, then the whole stack reshaped to
`(size, ordem, ordem, 1)`; target `y = phases[:size]`. -/
noncomputable def dataset_02_CNN (sfm : Signal) (ordem : ℕ) : Option DatasetCNNOut :=
  let size := 60000
  let data := abs_and_phases sfm
  let amplitudes := data.amplitudes
  let phases := data.phases
  match buildLoop (fun n => npReshape ordem (npSlice amplitudes n (ordem * ordem + n))) 0 size with
  | none => none
  | some X => some
      { data_amplitudes := npSlice amplitudes 0 size
        data_phases := npSlice phases 0 size
        X := X.map fun grid => grid.map fun row => row.map fun x => [x]
        y := npSlice phases 0 size }

/-- Length of a clamped numpy slice. -/
theorem length_npSlice {α : Type} (l : List α) (i j : ℕ) :
    (npSlice l i j).length = min (j - i) (l.length - i) := by
  simp [npSlice, List.length_take, List.length_drop]

/-- Entry lookup in a clamped numpy slice, inside the slice bounds. -/
theorem getElem?_npSlice {α : Type} (l : List α) (i j n : ℕ) (h : n < j - i) :
    (npSlice l i j)[n]? = l[i + n]? := by
  rw [npSlice, List.getElem?_take_of_lt h, List.getElem?_drop]

/-- A full window slice `a[n : ordem+n]` is `take ordem` of `drop n`. -/
theorem npSlice_window {α : Type} (l : List α) (ordem n : ℕ) :
    npSlice l n (ordem + n) = (l.drop n).take ordem := by
  rw [npSlice, Nat.add_sub_cancel]

/-- Entry lookup in a feature window. -/
theorem window_getElem? {α : Type} (l : List α) (ordem n k : ℕ) (hk : k < ordem) :
    ((l.drop n).take ordem)[k]? = l[n + k]? := by
  rw [List.getElem?_take_of_lt hk, List.getElem?_drop]

/-- When the trace extends past the window, the row assignment stores
the window verbatim. -/
theorem npSetRow_full (amp : List ℝ) (ordem n : ℕ) (h : n + ordem ≤ amp.length) :
    npSetRow ordem (npSlice amp n (ordem + n)) = some ((amp.drop n).take ordem) := by
  rw [npSlice_window]
  have hlen : ((amp.drop n).take ordem).length = ordem := by
    rw [List.length_take, List.length_drop]
    exact Nat.min_eq_left (by omega)
  simp [npSetRow, hlen]

/-- The loop succeeds, returning the rows produced by `g`, whenever
every iteration succeeds with the value of `g` there. -/
theorem buildLoop_eq_map {β : Type} (f : ℕ → Option β) (g : ℕ → β) :
    ∀ (n k : ℕ), (∀ j, j < k → f (n + j) = some (g (n + j))) →
      buildLoop f n k = some ((List.range k).map fun j => g (n + j))
  | n, 0, _ => by simp [buildLoop]
  | n, k + 1, h => by
    have h0 : f n = some (g n) := by simpa using h 0 (Nat.succ_pos k)
    have hrec := buildLoop_eq_map f g (n + 1) k (fun j hj => by
      have hstep := h (j + 1) (Nat.succ_lt_succ hj)
      have he : n + (j + 1) = n + 1 + j := by omega
      rwa [he] at hstep)
    simp only [buildLoop, h0, hrec]
    have harg : ∀ j : ℕ, n + 1 + j = n + (j + 1) := fun j => by omega
    simp only [List.range_succ_eq_map, List.map_cons, List.map_map, Nat.add_zero]
    refine congrArg some (congrArg₂ List.cons rfl ?_)
    refine congrArg₂ List.map ?_ rfl
    funext j
    simp only [Function.comp_apply, Nat.succ_eq_add_one]
    exact congrArg g (harg j)

/-- When the amplitude trace extends `ordem` past the requested `size`,
every window of the builders' loop is full and the loop returns the
sliding windows verbatim. -/
theorem rows_full (amps : List ℝ) (ordem : ℕ) (hlen : 59999 + ordem ≤ amps.length) :
    buildLoop (fun n => npSetRow ordem (npSlice amps n (ordem + n))) 0 60000
      = some ((List.range 60000).map fun j => (amps.drop j).take ordem) := by
  have h := buildLoop_eq_map (fun n => npSetRow ordem (npSlice amps n (ordem + n)))
    (fun m => (amps.drop m).take ordem) 0 60000
    (fun j hj => npSetRow_full amps ordem (0 + j) (by omega))
  simpa using h

/-- The amplitude and phase traces have equal length. -/
theorem abs_and_phases_length (sfm : Signal) :
    (abs_and_phases sfm).phases.length = (abs_and_phases sfm).amplitudes.length := by
  simp [abs_and_phases]

/-- C3: Variant 1 (last-sample) alignment.  For every signal whose
traces are long enough (`60000 + order ≤` trace length) and `order ≥ 1`,
`dataset_01` returns `X` with 60000 rows of width `order` and `y` of
length 60000, where row `n` of `X` holds the `order` consecutive
amplitudes starting at offset `n` and `y[n] = phases[order - 1 + n]`
(the phase at the last sample of the window); with `order = 4` this
gives `y[0] = p3`, `y[9] = p12` and `X[0] = [a0, a1, a2, a3]`. -/
theorem dataset_01_alignment (sfm : Signal) (ordem : ℕ) (h1 : 1 ≤ ordem)
    (hlen : 60000 + ordem ≤ (abs_and_phases sfm).amplitudes.length) :
    ∃ dataAmp dataPh X y, dataset_01 sfm ordem = some ⟨dataAmp, dataPh, X, y⟩ ∧
      X.length = 60000 ∧ (∀ row ∈ X, row.length = ordem) ∧
      y.length = 60000 ∧
      ∀ n, n < 60000 →
        (∃ row, X[n]? = some row ∧
          ∀ k, k < ordem → row[k]? = (abs_and_phases sfm).amplitudes[n + k]?) ∧
        y[n]? = (abs_and_phases sfm).phases[ordem - 1 + n]? := by
  have heq : dataset_01 sfm ordem = some
      ⟨npSlice (abs_and_phases sfm).amplitudes (ordem - 1) (60000 + ordem - 1),
       npSlice (abs_and_phases sfm).phases (ordem - 1) (60000 + ordem - 1),
       (List.range 60000).map fun j => ((abs_and_phases sfm).amplitudes.drop j).take ordem,
       npSlice (abs_and_phases sfm).phases (ordem - 1) (60000 + ordem - 1)⟩ := by
    simp only [dataset_01]
    rw [rows_full _ _ (by omega)]
  refine ⟨_, _, _, _, heq, ?_, ?_, ?_, ?_⟩
  · rw [List.length_map, List.length_range]
  · intro row hrow
    obtain ⟨j, hj, rfl⟩ := List.mem_map.mp hrow
    have hj2 : j < 60000 := List.mem_range.mp hj
    rw [List.length_take, List.length_drop]
    omega
  · rw [length_npSlice, abs_and_phases_length sfm]
    omega
  · intro n hn
    constructor
    · refine ⟨_, ?_, fun k hk => window_getElem? _ _ _ _ hk⟩
      rw [List.getElem?_map, List.getElem?_range hn, Option.map_some']
    · exact getElem?_npSlice (abs_and_phases sfm).phases (ordem - 1)
        (60000 + ordem - 1) n (by omega)

/-- Witness for C3: a one-mode signal with 60004 unit samples, at
`order = 4`. -/
theorem dataset_01_alignment_witness :
    (1 ≤ 4 ∧
      60000 + 4 ≤ (abs_and_phases ⟨1, 1, [List.replicate 60004 1]⟩).amplitudes.length) ∧
    ∃ dataAmp dataPh X y,
      dataset_01 ⟨1, 1, [List.replicate 60004 1]⟩ 4 = some ⟨dataAmp, dataPh, X, y⟩ ∧
      X.length = 60000 ∧ (∀ row ∈ X, row.length = 4) ∧
      y.length = 60000 ∧
      ∀ n, n < 60000 →
        (∃ row, X[n]? = some row ∧
          ∀ k, k < 4 →
            row[k]? = (abs_and_phases ⟨1, 1, [List.replicate 60004 1]⟩).amplitudes[n + k]?) ∧
        y[n]? = (abs_and_phases ⟨1, 1, [List.replicate 60004 1]⟩).phases[4 - 1 + n]? :=
  ⟨⟨by decide, by
      simp only [abs_and_phases, List.headD_cons, List.length_map, List.length_replicate]
      decide⟩,
   dataset_01_alignment ⟨1, 1, [List.replicate 60004 1]⟩ 4 (by decide)
     (by simp only [abs_and_phases, List.headD_cons, List.length_map, List.length_replicate]
         decide)⟩

/-- C4: Variant 2 (center-sample) alignment.  For every sufficiently
long signal, `dataset_02` builds the same feature windows and sets
`y[n] = phases[ordem / 2 + n]`, where `ordem / 2` is integer floor
division exactly as `int(ordem/2)` in the source (for odd `ordem` this
is not a true center); with `order = 4` this gives `y[0] = p2`. -/
theorem dataset_02_alignment (sfm : Signal) (ordem : ℕ)
    (hlen : 60000 + ordem ≤ (abs_and_phases sfm).amplitudes.length) :
    ∃ dataAmp dataPh X y, dataset_02 sfm ordem = some ⟨dataAmp, dataPh, X, y⟩ ∧
      X.length = 60000 ∧ (∀ row ∈ X, row.length = ordem) ∧
      y.length = 60000 ∧
      ∀ n, n < 60000 →
        (∃ row, X[n]? = some row ∧
          ∀ k, k < ordem → row[k]? = (abs_and_phases sfm).amplitudes[n + k]?) ∧
        y[n]? = (abs_and_phases sfm).phases[ordem / 2 + n]? := by
  have heq : dataset_02 sfm ordem = some
      ⟨npSlice (abs_and_phases sfm).amplitudes (ordem / 2) (60000 + ordem / 2),
       npSlice (abs_and_phases sfm).phases (ordem / 2) (60000 + ordem / 2),
       (List.range 60000).map fun j => ((abs_and_phases sfm).amplitudes.drop j).take ordem,
       npSlice (abs_and_phases sfm).phases (ordem / 2) (60000 + ordem / 2)⟩ := by
    simp only [dataset_02]
    rw [rows_full _ _ (by omega)]
  refine ⟨_, _, _, _, heq, ?_, ?_, ?_, ?_⟩
  · rw [List.length_map, List.length_range]
  · intro row hrow
    obtain ⟨j, hj, rfl⟩ := List.mem_map.mp hrow
    have hj2 : j < 60000 := List.mem_range.mp hj
    rw [List.length_take, List.length_drop]
    omega
  · rw [length_npSlice, abs_and_phases_length sfm]
    omega
  · intro n hn
    constructor
    · refine ⟨_, ?_, fun k hk => window_getElem? _ _ _ _ hk⟩
      rw [List.getElem?_map, List.getElem?_range hn, Option.map_some']
    · exact getElem?_npSlice (abs_and_phases sfm).phases (ordem / 2)
        (60000 + ordem / 2) n (by omega)

/-- Witness for C4: a one-mode signal with 60004 unit samples, at
`order = 4` (so the target offset is `⌊4/2⌋ = 2`). -/
theorem dataset_02_alignment_witness :
    (60000 + 4 ≤ (abs_and_phases ⟨1, 1, [List.replicate 60004 1]⟩).amplitudes.length) ∧
    ∃ dataAmp dataPh X y,
      dataset_02 ⟨1, 1, [List.replicate 60004 1]⟩ 4 = some ⟨dataAmp, dataPh, X, y⟩ ∧
      X.length = 60000 ∧ (∀ row ∈ X, row.length = 4) ∧
      y.length = 60000 ∧
      ∀ n, n < 60000 →
        (∃ row, X[n]? = some row ∧
          ∀ k, k < 4 →
            row[k]? = (abs_and_phases ⟨1, 1, [List.replicate 60004 1]⟩).amplitudes[n + k]?) ∧
        y[n]? = (abs_and_phases ⟨1, 1, [List.replicate 60004 1]⟩).phases[4 / 2 + n]? :=
  ⟨by simp only [abs_and_phases, List.headD_cons, List.length_map, List.length_replicate]
      decide,
   dataset_02_alignment ⟨1, 1, [List.replicate 60004 1]⟩ 4
     (by simp only [abs_and_phases, List.headD_cons, List.length_map, List.length_replicate]
         decide)⟩

/-- C5: Variant 3 (first-sample) alignment.  For every sufficiently
long signal, `dataset_03` builds the same feature windows and sets
`y[n] = phases[n]` (the phase at the window start); with `order = 4`
this gives `y[0] = p0` and `X[0] = [a0, a1, a2, a3]`. -/
theorem dataset_03_alignment (sfm : Signal) (ordem : ℕ)
    (hlen : 60000 + ordem ≤ (abs_and_phases sfm).amplitudes.length) :
    ∃ dataAmp dataPh X y, dataset_03 sfm ordem = some ⟨dataAmp, dataPh, X, y⟩ ∧
      X.length = 60000 ∧ (∀ row ∈ X, row.length = ordem) ∧
      y.length = 60000 ∧
      ∀ n, n < 60000 →
        (∃ row, X[n]? = some row ∧
          ∀ k, k < ordem → row[k]? = (abs_and_phases sfm).amplitudes[n + k]?) ∧
        y[n]? = (abs_and_phases sfm).phases[n]? := by
  have heq : dataset_03 sfm ordem = some
      ⟨npSlice (abs_and_phases sfm).amplitudes 0 60000,
       npSlice (abs_and_phases sfm).phases 0 60000,
       (List.range 60000).map fun j => ((abs_and_phases sfm).amplitudes.drop j).take ordem,
       npSlice (abs_and_phases sfm).phases 0 60000⟩ := by
    simp only [dataset_03]
    rw [rows_full _ _ (by omega)]
  refine ⟨_, _, _, _, heq, ?_, ?_, ?_, ?_⟩
  · rw [List.length_map, List.length_range]
  · intro row hrow
    obtain ⟨j, hj, rfl⟩ := List.mem_map.mp hrow
    have hj2 : j < 60000 := List.mem_range.mp hj
    rw [List.length_take, List.length_drop]
    omega
  · rw [length_npSlice, abs_and_phases_length sfm]
    omega
  · intro n hn
    constructor
    · refine ⟨_, ?_, fun k hk => window_getElem? _ _ _ _ hk⟩
      rw [List.getElem?_map, List.getElem?_range hn, Option.map_some']
    · have hy := getElem?_npSlice (abs_and_phases sfm).phases 0 60000 n (by omega)
      rwa [Nat.zero_add] at hy

/-- Witness for C5: a one-mode signal with 60004 unit samples, at
`order = 4`. -/
theorem dataset_03_alignment_witness :
    (60000 + 4 ≤ (abs_and_phases ⟨1, 1, [List.replicate 60004 1]⟩).amplitudes.length) ∧
    ∃ dataAmp dataPh X y,
      dataset_03 ⟨1, 1, [List.replicate 60004 1]⟩ 4 = some ⟨dataAmp, dataPh, X, y⟩ ∧
      X.length = 60000 ∧ (∀ row ∈ X, row.length = 4) ∧
      y.length = 60000 ∧
      ∀ n, n < 60000 →
        (∃ row, X[n]? = some row ∧
          ∀ k, k < 4 →
            row[k]? = (abs_and_phases ⟨1, 1, [List.replicate 60004 1]⟩).amplitudes[n + k]?) ∧
        y[n]? = (abs_and_phases ⟨1, 1, [List.replicate 60004 1]⟩).phases[n]? :=
  ⟨by simp only [abs_and_phases, List.headD_cons, List.length_map, List.length_replicate]
      decide,
   dataset_03_alignment ⟨1, 1, [List.replicate 60004 1]⟩ 4
     (by simp only [abs_and_phases, List.headD_cons, List.length_map, List.length_replicate]
         decide)⟩

/-- Row-major flattening of `reshapeRows` recovers the original list
when the length is exactly `k*m`. -/
theorem reshapeRows_flatten (k : ℕ) :
    ∀ (m : ℕ) (l : List ℝ), l.length = k * m → (reshapeRows k l m).flatten = l
  | 0, l, h => by
    rw [Nat.mul_zero] at h
    rw [reshapeRows, List.flatten_nil]
    exact (List.length_eq_zero.mp h).symm
  | m + 1, l, h => by
    rw [Nat.mul_succ] at h
    rw [reshapeRows, List.flatten_cons,
      reshapeRows_flatten k m (l.drop k) (by rw [List.length_drop]; omega)]
    exact List.take_append_drop k l

/-- Shape of `reshapeRows` on a list of length exactly `k*m`: `m` rows
of `k` entries each. -/
theorem reshapeRows_shape (k : ℕ) :
    ∀ (m : ℕ) (l : List ℝ), l.length = k * m →
      (reshapeRows k l m).length = m ∧ ∀ r ∈ reshapeRows k l m, r.length = k
  | 0, l, _ => by
    rw [reshapeRows]
    exact ⟨rfl, fun r hr => absurd hr (List.not_mem_nil r)⟩
  | m + 1, l, h => by
    rw [Nat.mul_succ] at h
    have ih := reshapeRows_shape k m (l.drop k) (by rw [List.length_drop]; omega)
    rw [reshapeRows]
    refine ⟨by rw [List.length_cons, ih.1], fun r hr => ?_⟩
    rcases List.mem_cons.mp hr with hhd | htl
    · subst hhd
      rw [List.length_take]
      exact Nat.min_eq_left (by omega)
    · exact ih.2 r htl

/-- Flattening a list of singleton lists recovers the original list. -/
theorem flatten_map_singleton {α : Type} :
    ∀ l : List α, (l.map fun x => [x]).flatten = l
  | [] => rfl
  | a :: l => by
    rw [List.map_cons, List.flatten_cons, flatten_map_singleton l]
    rfl

/-- Flatten commutes with mapping a function over every row. -/
theorem flatten_map_map {α β : Type} (f : α → β) :
    ∀ L : List (List α), (L.map fun r => r.map f).flatten = L.flatten.map f
  | [] => rfl
  | r :: L => by
    rw [List.map_cons, List.flatten_cons, List.flatten_cons, List.map_append,
      flatten_map_map f L]

/-- When the trace always extends past the `ordem*ordem` window, every
reshape of the CNN builder's loop succeeds. -/
theorem npReshape_full (amp : List ℝ) (ordem n : ℕ) (h : n + ordem * ordem ≤ amp.length) :
    npReshape ordem (npSlice amp n (ordem * ordem + n))
      = some (reshapeRows ordem ((amp.drop n).take (ordem * ordem)) ordem) := by
  rw [npSlice_window]
  have hlen : ((amp.drop n).take (ordem * ordem)).length = ordem * ordem := by
    rw [List.length_take, List.length_drop]
    exact Nat.min_eq_left (by omega)
  simp [npReshape, hlen]

/-- The CNN builder's loop returns the reshaped windows verbatim when
the trace is long enough. -/
theorem rows_full_CNN (amps : List ℝ) (ordem : ℕ)
    (hlen : 60000 + ordem * ordem ≤ amps.length) :
    buildLoop (fun n => npReshape ordem (npSlice amps n (ordem * ordem + n))) 0 60000
      = some ((List.range 60000).map fun j =>
          reshapeRows ordem ((amps.drop j).take (ordem * ordem)) ordem) := by
  have h := buildLoop_eq_map (fun n => npReshape ordem (npSlice amps n (ordem * ordem + n)))
    (fun m => reshapeRows ordem ((amps.drop m).take (ordem * ordem)) ordem) 0 60000
    (fun j hj => npReshape_full amps ordem (0 + j) (by omega))
  simpa using h

/-- C6: CNN variant reshape property.  For every sufficiently long
signal, `dataset_02_CNN` returns `X` with 60000 rows; row `n` is an
`ordem × ordem` grid of singleton cells (the trailing singleton
dimension of the `(size, ordem, ordem, 1)` reshape) whose row-major
flattening is exactly the `ordem*ordem` consecutive amplitudes starting
at offset `n`; the target is `y[n] = phases[n]`. -/
theorem dataset_02_CNN_reshape (sfm : Signal) (ordem : ℕ)
    (hlen : 60000 + ordem * ordem ≤ (abs_and_phases sfm).amplitudes.length) :
    ∃ dataAmp dataPh X y, dataset_02_CNN sfm ordem = some ⟨dataAmp, dataPh, X, y⟩ ∧
      X.length = 60000 ∧ y.length = 60000 ∧
      ∀ n, n < 60000 →
        (∃ grid, X[n]? = some grid ∧
          grid.length = ordem ∧
          (∀ r ∈ grid, r.length = ordem ∧ ∀ c ∈ r, c.length = 1) ∧
          grid.flatten.flatten
            = ((abs_and_phases sfm).amplitudes.drop n).take (ordem * ordem) ∧
          ∀ k, k < ordem * ordem →
            grid.flatten.flatten[k]? = (abs_and_phases sfm).amplitudes[n + k]?) ∧
        y[n]? = (abs_and_phases sfm).phases[n]? := by
  have heq : dataset_02_CNN sfm ordem = some
      ⟨npSlice (abs_and_phases sfm).amplitudes 0 60000,
       npSlice (abs_and_phases sfm).phases 0 60000,
       ((List.range 60000).map fun j =>
          reshapeRows ordem (((abs_and_phases sfm).amplitudes.drop j).take (ordem * ordem))
            ordem).map fun grid => grid.map fun row => row.map fun x => [x],
       npSlice (abs_and_phases sfm).phases 0 60000⟩ := by
    simp only [dataset_02_CNN]
    rw [rows_full_CNN _ _ hlen]
  refine ⟨_, _, _, _, heq, ?_, ?_, ?_⟩
  · rw [List.length_map, List.length_map, List.length_range]
  · rw [length_npSlice, abs_and_phases_length sfm]
    omega
  · intro n hn
    have hw : (((abs_and_phases sfm).amplitudes.drop n).take (ordem * ordem)).length
        = ordem * ordem := by
      rw [List.length_take, List.length_drop]
      exact Nat.min_eq_left (by omega)
    have hshape := reshapeRows_shape ordem ordem
      (((abs_and_phases sfm).amplitudes.drop n).take (ordem * ordem)) hw
    have hflat : ((reshapeRows ordem
          (((abs_and_phases sfm).amplitudes.drop n).take (ordem * ordem)) ordem).map
            fun row => row.map fun x => [x]).flatten.flatten
        = ((abs_and_phases sfm).amplitudes.drop n).take (ordem * ordem) := by
      rw [flatten_map_map, flatten_map_singleton,
        reshapeRows_flatten ordem ordem _ hw]
    constructor
    · refine ⟨_, ?_, ?_, ?_, hflat, ?_⟩
      · rw [List.getElem?_map, List.getElem?_map, List.getElem?_range hn,
          Option.map_some', Option.map_some']
      · rw [List.length_map]
        exact hshape.1
      · intro r hr
        obtain ⟨r0, hr0, rfl⟩ := List.mem_map.mp hr
        constructor
        · rw [List.length_map]
          exact hshape.2 r0 hr0
        · intro c hc
          obtain ⟨x, _, rfl⟩ := List.mem_map.mp hc
          rfl
      · intro k hk
        rw [hflat]
        exact window_getElem? _ _ _ _ hk
    · have hy := getElem?_npSlice (abs_and_phases sfm).phases 0 60000 n (by omega)
      rwa [Nat.zero_add] at hy

/-- Witness for C6: a one-mode signal with 60009 unit samples, at
`order = 3` (windows of 9 samples reshaped to 3×3). -/
theorem dataset_02_CNN_reshape_witness :
    (60000 + 3 * 3 ≤ (abs_and_phases ⟨1, 1, [List.replicate 60009 1]⟩).amplitudes.length) ∧
    ∃ dataAmp dataPh X y,
      dataset_02_CNN ⟨1, 1, [List.replicate 60009 1]⟩ 3 = some ⟨dataAmp, dataPh, X, y⟩ ∧
      X.length = 60000 ∧ y.length = 60000 ∧
      ∀ n, n < 60000 →
        (∃ grid, X[n]? = some grid ∧
          grid.length = 3 ∧
          (∀ r ∈ grid, r.length = 3 ∧ ∀ c ∈ r, c.length = 1) ∧
          grid.flatten.flatten
            = ((abs_and_phases ⟨1, 1, [List.replicate 60009 1]⟩).amplitudes.drop n).take
                (3 * 3) ∧
          ∀ k, k < 3 * 3 →
            grid.flatten.flatten[k]?
              = (abs_and_phases ⟨1, 1, [List.replicate 60009 1]⟩).amplitudes[n + k]?) ∧
        y[n]? = (abs_and_phases ⟨1, 1, [List.replicate 60009 1]⟩).phases[n]? :=
  ⟨by simp only [abs_and_phases, List.headD_cons, List.length_map, List.length_replicate]
      decide,
   dataset_02_CNN_reshape ⟨1, 1, [List.replicate 60009 1]⟩ 3
     (by simp only [abs_and_phases, List.headD_cons, List.length_map, List.length_replicate]
         decide)⟩

/-- C7: Returned-trace index alignment.  Every dataset variant slices
the returned amplitude/phase dictionary with the same offset as its
target vector: the returned `data` phases coincide with `y` (they are
the same slice), and the returned `data` amplitude at row `n` is the
amplitude sample at the same index as the target — offset `order - 1`
for variant 1, `⌊order/2⌋` for variant 2, and `0` for variant 3 and the
CNN variant. -/
theorem dataset_data_alignment (sfm : Signal) (ordem : ℕ) (h1 : 1 ≤ ordem)
    (hlen : 60000 + ordem * ordem ≤ (abs_and_phases sfm).amplitudes.length) :
    (∃ dataAmp dataPh X y, dataset_01 sfm ordem = some ⟨dataAmp, dataPh, X, y⟩ ∧
      dataPh = y ∧
      ∀ n, n < 60000 →
        dataPh[n]? = y[n]? ∧
        dataAmp[n]? = (abs_and_phases sfm).amplitudes[ordem - 1 + n]? ∧
        y[n]? = (abs_and_phases sfm).phases[ordem - 1 + n]?) ∧
    (∃ dataAmp dataPh X y, dataset_02 sfm ordem = some ⟨dataAmp, dataPh, X, y⟩ ∧
      dataPh = y ∧
      ∀ n, n < 60000 →
        dataPh[n]? = y[n]? ∧
        dataAmp[n]? = (abs_and_phases sfm).amplitudes[ordem / 2 + n]? ∧
        y[n]? = (abs_and_phases sfm).phases[ordem / 2 + n]?) ∧
    (∃ dataAmp dataPh X y, dataset_03 sfm ordem = some ⟨dataAmp, dataPh, X, y⟩ ∧
      dataPh = y ∧
      ∀ n, n < 60000 →
        dataPh[n]? = y[n]? ∧
        dataAmp[n]? = (abs_and_phases sfm).amplitudes[n]? ∧
        y[n]? = (abs_and_phases sfm).phases[n]?) ∧
    (∃ dataAmp dataPh X y, dataset_02_CNN sfm ordem = some ⟨dataAmp, dataPh, X, y⟩ ∧
      dataPh = y ∧
      ∀ n, n < 60000 →
        dataPh[n]? = y[n]? ∧
        dataAmp[n]? = (abs_and_phases sfm).amplitudes[n]? ∧
        y[n]? = (abs_and_phases sfm).phases[n]?) := by
  have hsq : ordem ≤ ordem * ordem := Nat.le_mul_of_pos_left ordem h1
  have hlen1 : 60000 + ordem ≤ (abs_and_phases sfm).amplitudes.length := by
    exact le_trans (Nat.add_le_add_left hsq 60000) hlen
  refine ⟨?_, ?_, ?_, ?_⟩
  · have heq : dataset_01 sfm ordem = some
        ⟨npSlice (abs_and_phases sfm).amplitudes (ordem - 1) (60000 + ordem - 1),
         npSlice (abs_and_phases sfm).phases (ordem - 1) (60000 + ordem - 1),
         (List.range 60000).map fun j => ((abs_and_phases sfm).amplitudes.drop j).take ordem,
         npSlice (abs_and_phases sfm).phases (ordem - 1) (60000 + ordem - 1)⟩ := by
      simp only [dataset_01]
      rw [rows_full _ _ (by omega)]
    refine ⟨_, _, _, _, heq, rfl, fun n hn => ⟨rfl, ?_, ?_⟩⟩
    · exact getElem?_npSlice (abs_and_phases sfm).amplitudes (ordem - 1)
        (60000 + ordem - 1) n (by omega)
    · exact getElem?_npSlice (abs_and_phases sfm).phases (ordem - 1)
        (60000 + ordem - 1) n (by omega)
  · have heq : dataset_02 sfm ordem = some
        ⟨npSlice (abs_and_phases sfm).amplitudes (ordem / 2) (60000 + ordem / 2),
         npSlice (abs_and_phases sfm).phases (ordem / 2) (60000 + ordem / 2),
         (List.range 60000).map fun j => ((abs_and_phases sfm).amplitudes.drop j).take ordem,
         npSlice (abs_and_phases sfm).phases (ordem / 2) (60000 + ordem / 2)⟩ := by
      simp only [dataset_02]
      rw [rows_full _ _ (by omega)]
    refine ⟨_, _, _, _, heq, rfl, fun n hn => ⟨rfl, ?_, ?_⟩⟩
    · exact getElem?_npSlice (abs_and_phases sfm).amplitudes (ordem / 2)
        (60000 + ordem / 2) n (by omega)
    · exact getElem?_npSlice (abs_and_phases sfm).phases (ordem / 2)
        (60000 + ordem / 2) n (by omega)
  · have heq : dataset_03 sfm ordem = some
        ⟨npSlice (abs_and_phases sfm).amplitudes 0 60000,
         npSlice (abs_and_phases sfm).phases 0 60000,
         (List.range 60000).map fun j => ((abs_and_phases sfm).amplitudes.drop j).take ordem,
         npSlice (abs_and_phases sfm).phases 0 60000⟩ := by
      simp only [dataset_03]
      rw [rows_full _ _ (by omega)]
    refine ⟨_, _, _, _, heq, rfl, fun n hn => ⟨rfl, ?_, ?_⟩⟩
    · have h := getElem?_npSlice (abs_and_phases sfm).amplitudes 0 60000 n (by omega)
      rwa [Nat.zero_add] at h
    · have h := getElem?_npSlice (abs_and_phases sfm).phases 0 60000 n (by omega)
      rwa [Nat.zero_add] at h
  · have heq : dataset_02_CNN sfm ordem = some
        ⟨npSlice (abs_and_phases sfm).amplitudes 0 60000,
         npSlice (abs_and_phases sfm).phases 0 60000,
         ((List.range 60000).map fun j =>
            reshapeRows ordem (((abs_and_phases sfm).amplitudes.drop j).take (ordem * ordem))
              ordem).map fun grid => grid.map fun row => row.map fun x => [x],
         npSlice (abs_and_phases sfm).phases 0 60000⟩ := by
      simp only [dataset_02_CNN]
      rw [rows_full_CNN _ _ hlen]
    refine ⟨_, _, _, _, heq, rfl, fun n hn => ⟨rfl, ?_, ?_⟩⟩
    · have h := getElem?_npSlice (abs_and_phases sfm).amplitudes 0 60000 n (by omega)
      rwa [Nat.zero_add] at h
    · have h := getElem?_npSlice (abs_and_phases sfm).phases 0 60000 n (by omega)
      rwa [Nat.zero_add] at h

/-- Witness for C7: a one-mode signal with 60016 unit samples, at
`order = 4`. -/
theorem dataset_data_alignment_witness :
    (1 ≤ 4 ∧
      60000 + 4 * 4 ≤ (abs_and_phases ⟨1, 1, [List.replicate 60016 1]⟩).amplitudes.length) ∧
    (∃ dataAmp dataPh X y,
      dataset_01 ⟨1, 1, [List.replicate 60016 1]⟩ 4 = some ⟨dataAmp, dataPh, X, y⟩ ∧
      dataPh = y ∧
      ∀ n, n < 60000 →
        dataPh[n]? = y[n]? ∧
        dataAmp[n]? = (abs_and_phases ⟨1, 1, [List.replicate 60016 1]⟩).amplitudes[4 - 1 + n]? ∧
        y[n]? = (abs_and_phases ⟨1, 1, [List.replicate 60016 1]⟩).phases[4 - 1 + n]?) :=
  ⟨⟨by decide, by
      simp only [abs_and_phases, List.headD_cons, List.length_map, List.length_replicate]
      decide⟩,
   (dataset_data_alignment ⟨1, 1, [List.replicate 60016 1]⟩ 4 (by decide)
     (by simp only [abs_and_phases, List.headD_cons, List.length_map, List.length_replicate]
         decide)).1⟩

/-- Whenever every window fits (`59999 + order ≤` trace length, i.e.
even when `size + order` exceeds the trace length by exactly one),
`dataset_01` succeeds and returns 60000 full feature rows. -/
theorem dataset_01_rows_some (sfm : Signal) (ordem : ℕ)
    (hlen : 59999 + ordem ≤ (abs_and_phases sfm).amplitudes.length) :
    ∃ dataAmp dataPh X y, dataset_01 sfm ordem = some ⟨dataAmp, dataPh, X, y⟩ ∧
      X.length = 60000 ∧ ∀ row ∈ X, row.length = ordem := by
  have heq : dataset_01 sfm ordem = some
      ⟨npSlice (abs_and_phases sfm).amplitudes (ordem - 1) (60000 + ordem - 1),
       npSlice (abs_and_phases sfm).phases (ordem - 1) (60000 + ordem - 1),
       (List.range 60000).map fun j => ((abs_and_phases sfm).amplitudes.drop j).take ordem,
       npSlice (abs_and_phases sfm).phases (ordem - 1) (60000 + ordem - 1)⟩ := by
    simp only [dataset_01]
    rw [rows_full _ _ hlen]
  refine ⟨_, _, _, _, heq, ?_, ?_⟩
  · rw [List.length_map, List.length_range]
  · intro row hrow
    obtain ⟨j, hj, rfl⟩ := List.mem_map.mp hrow
    have hj2 : j < 60000 := List.mem_range.mp hj
    rw [List.length_take, List.length_drop]
    omega

/-- C8 counterexample: with `order = 2` and a trace of exactly 60001
samples we have `size + order = 60002 > 60001`, yet `dataset_01` raises
nothing and returns normally (every window still holds 2 samples, since
the last row starts at 59999 and ends at 60001). -/
theorem dataset_01_no_rejection_counterexample :
    60000 + 2 > (abs_and_phases ⟨1, 1, [List.replicate 60001 1]⟩).amplitudes.length ∧
    (dataset_01 ⟨1, 1, [List.replicate 60001 1]⟩ 2).isSome = true := by
  have hL : (abs_and_phases ⟨1, 1, [List.replicate 60001 1]⟩).amplitudes.length = 60001 := by
    simp only [abs_and_phases, List.headD_cons, List.length_map, List.length_replicate]
  constructor
  · rw [hL]
    decide
  · obtain ⟨dataAmp, dataPh, X, y, heq, _, _⟩ :=
      dataset_01_rows_some ⟨1, 1, [List.replicate 60001 1]⟩ 2 (by rw [hL])
    rw [heq]
    rfl

/-- C8 amended: the builders perform no bounds validation.  Requesting
`size + order > len(amplitudes)` does not raise; in particular whenever
the trace has exactly `size + order - 1` samples, `dataset_01` returns
normally with all 60000 feature rows full (width `order`), even though
`size + order` exceeds the trace length. -/
theorem dataset_01_no_validation (sfm : Signal) (ordem : ℕ) (h1 : 1 ≤ ordem)
    (hlen : (abs_and_phases sfm).amplitudes.length + 1 = 60000 + ordem) :
    60000 + ordem > (abs_and_phases sfm).amplitudes.length ∧
    ∃ dataAmp dataPh X y, dataset_01 sfm ordem = some ⟨dataAmp, dataPh, X, y⟩ ∧
      X.length = 60000 ∧ ∀ row ∈ X, row.length = ordem :=
  ⟨by omega, dataset_01_rows_some sfm ordem (by omega)⟩

/-- Trace length of a one-mode signal whose mode is `replicate n z`. -/
theorem replicate_signal_length (fs fb : ℝ) (n : ℕ) (z : ℂ) :
    (abs_and_phases ⟨fs, fb, [List.replicate n z]⟩).amplitudes.length = n := by
  simp only [abs_and_phases, List.headD_cons, List.length_map, List.length_replicate]

/-- Witness for the amended C8 at order 2 with a 60001-sample trace. -/
theorem dataset_01_no_validation_witness :
    (1 ≤ 2 ∧
      (abs_and_phases ⟨1, 1, [List.replicate 60001 (2 : ℂ)]⟩).amplitudes.length + 1
        = 60000 + 2) ∧
    (60000 + 2 > (abs_and_phases ⟨1, 1, [List.replicate 60001 (2 : ℂ)]⟩).amplitudes.length ∧
    ∃ dataAmp dataPh X y,
      dataset_01 ⟨1, 1, [List.replicate 60001 (2 : ℂ)]⟩ 2 = some ⟨dataAmp, dataPh, X, y⟩ ∧
      X.length = 60000 ∧ ∀ row ∈ X, row.length = 2) :=
  ⟨⟨by decide, by rw [replicate_signal_length]⟩,
   dataset_01_no_validation ⟨1, 1, [List.replicate 60001 (2 : ℂ)]⟩ 2 (by decide)
     (by rw [replicate_signal_length])⟩

/-- C10: silent broadcast on insufficient input.  With `order = 2` and
traces of length exactly 60000 (so the windowing precondition
`size + order ≤ len` fails), `dataset_01` returns normally: the final
window `amplitudes[59999:60001]` has length 1 and numpy broadcasts it
across the row, so row 59999 of `X` repeats the single remaining
amplitude twice, and the returned `y = phases[1:60001]` silently has
length 59999 instead of 60000. -/
theorem dataset_01_broadcast_edge (sfm : Signal)
    (hlen : (abs_and_phases sfm).amplitudes.length = 60000) :
    ∃ dataAmp dataPh X y, dataset_01 sfm 2 = some ⟨dataAmp, dataPh, X, y⟩ ∧
      X.length = 60000 ∧
      X[59999]? = some (List.replicate 2 ((abs_and_phases sfm).amplitudes.getD 59999 0)) ∧
      y.length = 59999 := by
  have hstep : ∀ j, j < 60000 →
      (fun n => npSetRow 2 (npSlice (abs_and_phases sfm).amplitudes n (2 + n))) (0 + j)
        = some ((fun m => if m = 59999
            then List.replicate 2 ((abs_and_phases sfm).amplitudes.getD 59999 0)
            else ((abs_and_phases sfm).amplitudes.drop m).take 2) (0 + j)) := by
    intro j hj
    rw [Nat.zero_add]
    show npSetRow 2 (npSlice (abs_and_phases sfm).amplitudes j (2 + j))
      = some (if j = 59999
          then List.replicate 2 ((abs_and_phases sfm).amplitudes.getD 59999 0)
          else ((abs_and_phases sfm).amplitudes.drop j).take 2)
    by_cases hj59 : j = 59999
    · subst hj59
      rw [if_pos rfl, npSlice_window]
      have hdlen : ((abs_and_phases sfm).amplitudes.drop 59999).length = 1 := by
        rw [List.length_drop, hlen]
      have htake : ((abs_and_phases sfm).amplitudes.drop 59999).take 2
          = (abs_and_phases sfm).amplitudes.drop 59999 :=
        List.take_of_length_le (by rw [hdlen]; decide)
      rw [htake]
      have hhead : ((abs_and_phases sfm).amplitudes.drop 59999).headD 0
          = (abs_and_phases sfm).amplitudes.getD 59999 0 := by
        rw [List.headD_eq_head?, List.head?_drop, ← List.getD_eq_getElem?_getD]
      rw [npSetRow, hdlen]
      rw [if_neg (by decide), if_pos rfl, hhead]
    · rw [if_neg hj59]
      exact npSetRow_full (abs_and_phases sfm).amplitudes 2 j (by omega)
  have hloop := buildLoop_eq_map
    (fun n => npSetRow 2 (npSlice (abs_and_phases sfm).amplitudes n (2 + n)))
    (fun m => if m = 59999
        then List.replicate 2 ((abs_and_phases sfm).amplitudes.getD 59999 0)
        else ((abs_and_phases sfm).amplitudes.drop m).take 2) 0 60000 hstep
  have hloop2 : buildLoop
      (fun n => npSetRow 2 (npSlice (abs_and_phases sfm).amplitudes n (2 + n))) 0 60000
      = some ((List.range 60000).map fun m => if m = 59999
          then List.replicate 2 ((abs_and_phases sfm).amplitudes.getD 59999 0)
          else ((abs_and_phases sfm).amplitudes.drop m).take 2) := by
    rw [hloop]
    refine congrArg some (congrArg₂ List.map ?_ rfl)
    funext j
    rw [Nat.zero_add]
  have heq : dataset_01 sfm 2 = some
      ⟨npSlice (abs_and_phases sfm).amplitudes (2 - 1) (60000 + 2 - 1),
       npSlice (abs_and_phases sfm).phases (2 - 1) (60000 + 2 - 1),
       (List.range 60000).map fun m => if m = 59999
          then List.replicate 2 ((abs_and_phases sfm).amplitudes.getD 59999 0)
          else ((abs_and_phases sfm).amplitudes.drop m).take 2,
       npSlice (abs_and_phases sfm).phases (2 - 1) (60000 + 2 - 1)⟩ := by
    simp only [dataset_01]
    rw [hloop2]
  refine ⟨_, _, _, _, heq, ?_, ?_, ?_⟩
  · rw [List.length_map, List.length_range]
  · rw [List.getElem?_map, List.getElem?_range (by decide), Option.map_some', if_pos rfl]
  · rw [length_npSlice, abs_and_phases_length sfm, hlen]
    decide

/-- Witness for C10: a one-mode signal with exactly 60000 unit
samples. -/
theorem dataset_01_broadcast_edge_witness :
    ((abs_and_phases ⟨1, 1, [List.replicate 60000 1]⟩).amplitudes.length = 60000) ∧
    ∃ dataAmp dataPh X y,
      dataset_01 ⟨1, 1, [List.replicate 60000 1]⟩ 2 = some ⟨dataAmp, dataPh, X, y⟩ ∧
      X.length = 60000 ∧
      X[59999]? = some (List.replicate 2
        ((abs_and_phases ⟨1, 1, [List.replicate 60000 1]⟩).amplitudes.getD 59999 0)) ∧
      y.length = 59999 :=
  ⟨by rw [replicate_signal_length],
   dataset_01_broadcast_edge ⟨1, 1, [List.replicate 60000 1]⟩
     (by rw [replicate_signal_length])⟩
